import Mathlib

/-!
Shallow embedding of the kube-icinga reconciliation core, translated from
src/kube/node.ts, src/kube/ingress.ts and src/kube/volume.ts.

Modelling conventions: kubernetes objects are records carrying exactly the
fields the translators read; a JavaScript field that can be `null` or
`undefined` is an `Option` with `none`; JavaScript truthiness of a string
field is the test for a non-empty string; the calls a translator issues to
the Icinga client facade are reified as a list of `Call` values in issue
order; a thrown JavaScript error is an `Option String` error component of
the result.  `Object.assign` merging of the configured override objects is
modelled field-wise by `mergeHost` and `mergeService`, the override record
carrying `Option` fields (a key that is present replaces the computed
field, a key that is absent leaves it).
-/

namespace KubeIcinga

/-- Override record for host definitions (the `hostDefinition` option): an
`Object.assign` source whose present keys replace the computed fields. -/
structure HostOverrides where
  display_name : Option String := none
  address : Option String := none
  check_command : Option String := none
  deriving DecidableEq

/-- A host definition as sent to `icinga.applyHost`, parametric in the type
of the decoded kubernetes object mirrored into the key `vars.kubernetes`.
The key `vars._kubernetes` is the field `vars_kubernetes_flag`; the slots
that the volume translator can pass as JavaScript `null` are `Option`. -/
structure HostDef (α : Type) where
  display_name : Option String
  address : Option String
  check_command : String
  vars_dummy_state : Option Nat := none
  vars_kubernetes_flag : Bool := true
  vars_kubernetes : α
  deriving DecidableEq

/-- Override record for service definitions (the `serviceDefinition` option
and the annotation-driven per-object override). -/
structure ServiceOverrides where
  display_name : Option String := none
  check_command : Option String := none
  vars_http_ssl : Option Bool := none
  deriving DecidableEq

/-- A service definition as sent to `icinga.applyService`. -/
structure ServiceDef (α : Type) where
  check_command : String
  display_name : String
  vars_kubernetes_flag : Bool := true
  vars_kubernetes : α
  vars_http_address : Option String := none
  vars_http_vhost : Option String := none
  vars_http_path : Option String := none
  vars_http_ignore_body : Option Bool := none
  vars_http_ssl : Option Bool := none
  groups : List String := []
  host_name : Option String := none
  deriving DecidableEq

/-- Field-wise `Object.assign` of a host override record onto a computed
host definition. -/
def mergeHost {α : Type} (d : HostDef α) (o : HostOverrides) : HostDef α :=
  { d with
    display_name := match o.display_name with | some x => some x | none => d.display_name
    address := match o.address with | some x => some x | none => d.address
    check_command := o.check_command.getD d.check_command }

/-- Field-wise `Object.assign` of a service override record onto a computed
service definition. -/
def mergeService {α : Type} (d : ServiceDef α) (o : ServiceOverrides) : ServiceDef α :=
  { d with
    display_name := o.display_name.getD d.display_name
    check_command := o.check_command.getD d.check_command
    vars_http_ssl := match o.vars_http_ssl with | some b => some b | none => d.vars_http_ssl }

/-- One call to the Icinga client facade, recorded in issue order. -/
inductive Call (α : Type) where
  | applyHost (name : Option String) (defn : HostDef α) (templates : List String)
  | applyService (host : Option String) (name : String) (defn : ServiceDef α) (templates : List String)
  | applyServiceGroup (name : String)
  | deleteHost (name : Option String)
  | deleteServicesByFilter (filter : String)
  deriving DecidableEq

def Call.isApplyService {α : Type} : Call α → Bool
  | .applyService _ _ _ _ => true
  | _ => false

def Call.isApplyHost {α : Type} : Call α → Bool
  | .applyHost _ _ _ => true
  | _ => false

def Call.isApplyServiceGroup {α : Type} : Call α → Bool
  | .applyServiceGroup _ => true
  | _ => false

/-- Display names of the service definitions carried by `applyService`
calls, in issue order. -/
def serviceDisplayNames {α : Type} (calls : List (Call α)) : List String :=
  calls.filterMap fun c =>
    match c with
    | .applyService _ _ defn _ => some defn.display_name
    | _ => none

/-- Display names of the host definitions carried by `applyHost` calls, in
issue order. -/
def hostDisplayNames {α : Type} (calls : List (Call α)) : List (Option String) :=
  calls.filterMap fun c =>
    match c with
    | .applyHost _ defn _ => some defn.display_name
    | _ => none

/-- Names of the `applyServiceGroup` calls, in issue order. -/
def serviceGroupNames {α : Type} (calls : List (Call α)) : List String :=
  calls.filterMap fun c =>
    match c with
    | .applyServiceGroup n => some n
    | _ => none

/-- A decoded change event from the watch transport. -/
structure WatchEvent (α : Type) where
  type : String
  object : α
  deriving DecidableEq

/-- Modelled from the spec: `escapeChar` is the character-wise core of
`escapeName` below; characters legal in monitoring object names
(alphanumerics and dashes) are kept, every other character becomes a dash. -/
def escapeChar (c : Char) : Char :=
  if c.isAlphanum ∨ c = '-' then c else '-'

/-- Modelled from the spec: `escapeName` of the Naming and Template Helper
is not among the given sources; per the spec it is a pure, deterministic
function sanitizing arbitrary cluster names into monitoring-safe
identifiers, modelled as the character-wise map `escapeChar`. -/
def escapeName (s : String) : String :=
  ⟨s.data.map escapeChar⟩

/-- Modelled from the spec: `prepareTemplates` of the Naming and Template
Helper is not among the given sources; per the spec it reads a well-known
annotation key and returns zero or more extra template names to append
after the statically configured ones.  Modelled as splitting the value of
the kube-icinga/templates annotation on commas. -/
def prepareTemplates (annotations : List (String × String)) : List String :=
  match annotations.lookup "kube-icinga/templates" with
  | some v => if v = "" then [] else v.splitOn ","
  | none => []

/-- JavaScript string interpolation of a possibly-undefined value: the
value `undefined` coerces to the literal text undefined. -/
def jsConcatValue : Option String → String
  | some s => s
  | none => "undefined"

/-! ## Node translator (src/kube/node.ts) -/

structure NodeMetadata where
  name : String
  deriving DecidableEq

/-- Truthiness of the field `spec.unschedulable` of a decoded Node. -/
structure NodeSpec where
  unschedulable : Bool
  deriving DecidableEq

structure NodeObject where
  metadata : NodeMetadata
  spec : NodeSpec
  deriving DecidableEq

structure NodeOptions where
  discover : Bool := true
  hostDefinition : HostOverrides := {}
  hostTemplates : List String := []
  deriving DecidableEq

def nodeDefaultOptions : NodeOptions := {}

/-- `Node.prepareObject`: builds the ping host, pushes the node name onto
the worker node registry when `spec.unschedulable` is falsy, merges the
configured `hostDefinition` on top and applies the host.  Returns the new
registry together with the issued calls. -/
def nodePrepareObject (opts : NodeOptions) (nodes : List String) (d : NodeObject) :
    List String × List (Call NodeObject) :=
  let host : HostDef NodeObject :=
    { display_name := some d.metadata.name
      address := some d.metadata.name
      vars_kubernetes_flag := true
      vars_kubernetes := d
      check_command := "ping" }
  let nodes' := if !d.spec.unschedulable then nodes ++ [d.metadata.name] else nodes
  (nodes', [Call.applyHost (some d.metadata.name) (mergeHost host opts.hostDefinition) opts.hostTemplates])

/-- `Node.getWorkerNodes`: read accessor for the worker node registry. -/
def getWorkerNodes (nodes : List String) : List String := nodes

/-- `Node.deleteObject`: deletes the monitoring host; the registry is not
touched. -/
def nodeDeleteObject (d : NodeObject) : List (Call NodeObject) :=
  [Call.deleteHost (some d.metadata.name)]

/-- Modelled from the spec: `handleResource` of the shared translator
contract is not among the given sources; per the spec it routes ADDED and
MODIFIED events to `prepareObject` unless `discover` is false (in which
case the event is ignored entirely), routes DELETED events to
`deleteObject`, and catches a translation failure so that it never aborts
the watch loop. -/
def handleNodeResource (opts : NodeOptions) (nodes : List String) (ev : WatchEvent NodeObject) :
    List String × List (Call NodeObject) :=
  if ev.type = "ADDED" ∨ ev.type = "MODIFIED" then
    if opts.discover then nodePrepareObject opts nodes ev.object else (nodes, [])
  else if ev.type = "DELETED" then (nodes, nodeDeleteObject ev.object)
  else (nodes, [])

/-- One step of `Node.kubeListener`: MODIFIED events are ignored for kube
nodes before any dispatch, every other event goes to `handleNodeResource`. -/
def nodeKubeListenerStep (opts : NodeOptions) (nodes : List String) (ev : WatchEvent NodeObject) :
    List String × List (Call NodeObject) :=
  if ev.type = "MODIFIED" then (nodes, [])
  else handleNodeResource opts nodes ev

/-- The worker node registry after the Node listener has consumed a whole
sequence of events. -/
def nodeProcessEvents (opts : NodeOptions) : List String → List (WatchEvent NodeObject) → List String
  | nodes, [] => nodes
  | nodes, ev :: evs => nodeProcessEvents opts (nodeKubeListenerStep opts nodes ev).1 evs

/-- One listener step never removes registry entries: the new registry is
the old one with a (possibly empty) suffix appended. -/
theorem nodeKubeListenerStep_grows (opts : NodeOptions) (nodes : List String)
    (ev : WatchEvent NodeObject) :
    ∃ t, (nodeKubeListenerStep opts nodes ev).1 = nodes ++ t := by
  unfold nodeKubeListenerStep handleNodeResource nodePrepareObject nodeDeleteObject
  split
  · exact ⟨[], by simp⟩
  · split
    · split
      · split
        · exact ⟨[_], rfl⟩
        · exact ⟨[], by simp⟩
      · exact ⟨[], by simp⟩
    · split
      · exact ⟨[], by simp⟩
      · exact ⟨[], by simp⟩

/-- Registry growth lifts to whole event sequences. -/
theorem nodeProcessEvents_grows (opts : NodeOptions) (evs : List (WatchEvent NodeObject)) :
    ∀ nodes, ∃ t, nodeProcessEvents opts nodes evs = nodes ++ t := by
  induction evs with
  | nil => exact fun nodes => ⟨[], by simp [nodeProcessEvents]⟩
  | cons ev evs ih =>
    intro nodes
    obtain ⟨t1, h1⟩ := nodeKubeListenerStep_grows opts nodes ev
    obtain ⟨t2, h2⟩ := ih (nodeKubeListenerStep opts nodes ev).1
    exact ⟨t1 ++ t2, by rw [nodeProcessEvents, h2, h1, List.append_assoc]⟩

/-! ## Ingress translator (src/kube/ingress.ts) -/

structure IngressPath where
  path : Option String := none
  deriving DecidableEq

structure IngressHttp where
  paths : List IngressPath := []
  deriving DecidableEq

structure IngressRule where
  host : String
  http : IngressHttp
  deriving DecidableEq

/-- The `tls` field only ever feeds a truthiness test, so it is modelled as
that truthiness. -/
structure IngressSpec where
  rules : List IngressRule := []
  tls : Bool := false
  deriving DecidableEq

/-- Metadata of a decoded ingress.  Modelled from the spec: the
annotation-driven per-object override mapping read by `prepareResource`
(not among the given sources) is carried, already decoded, as the
`resourceOverrides` component. -/
structure IngressMetadata where
  name : String
  namespace_ : String
  annotations : List (String × String) := []
  resourceOverrides : ServiceOverrides := {}
  deriving DecidableEq

structure IngressObject where
  kind : String := "Ingress"
  metadata : IngressMetadata
  spec : IngressSpec
  deriving DecidableEq

structure IngressOptions where
  applyServices : Bool := true
  attachToNodes : Bool := false
  hostDefinition : HostOverrides := {}
  serviceDefinition : ServiceOverrides := {}
  hostTemplates : List String := []
  serviceTemplates : List String := []
  deriving DecidableEq

def ingressDefaultOptions : IngressOptions := {}

/-- The synthesized ingress host name: escape of the dash-join of the word
ingress, the namespace and the name. -/
def ingressHostname (d : IngressObject) : String :=
  escapeName ("ingress" ++ "-" ++ d.metadata.namespace_ ++ "-" ++ d.metadata.name)

/-- `Ingress.applyHost`: the computed dummy-check host definition with the
configured `hostDefinition` merged on top. -/
def ingressHostDef (opts : IngressOptions) (name : String) (address : String) (d : IngressObject) :
    HostDef IngressObject :=
  mergeHost
    { display_name := some name
      address := some address
      check_command := "dummy"
      vars_dummy_state := some 0
      vars_kubernetes_flag := true
      vars_kubernetes := d }
    opts.hostDefinition

/-- `Ingress.applyService`: with `attachToNodes` the definition is applied
once per worker node with `host_name` mutated to the node, otherwise once
against the given host. -/
def ingressApplyService (opts : IngressOptions) (workerNodes : List String)
    (host : String) (name : String) (defn : ServiceDef IngressObject)
    (templates : List String) : List (Call IngressObject) :=
  if opts.attachToNodes then
    workerNodes.map fun node =>
      Call.applyService (some node) name { defn with host_name := some node } templates
  else
    [Call.applyService (some host) name { defn with host_name := some host } templates]

/-- Truthiness default of a rule path: `path.path || '/'`. -/
def ingressPathBase (p : IngressPath) : String :=
  match p.path with
  | some s => if s = "" then "/" else s
  | none => "/"

/-- The http service definition of one rule-path pair: computed fields,
then the configured `serviceDefinition`, then the per-object annotation
override, later keys replacing earlier ones. -/
def ingressHttpServiceDef (opts : IngressOptions) (d : IngressObject)
    (rule : IngressRule) (base : String) : ServiceDef IngressObject :=
  mergeService
    (mergeService
      { check_command := "http"
        display_name := rule.host ++ base ++ ":http"
        vars_kubernetes_flag := true
        vars_kubernetes := d
        vars_http_address := some rule.host
        vars_http_vhost := some rule.host
        vars_http_path := some base
        vars_http_ignore_body := some true
        groups := [d.metadata.namespace_] }
      opts.serviceDefinition)
    d.metadata.resourceOverrides

/-- The https variant reuses the merged http definition and mutates it
afterwards: an s is appended to its display name and `vars.http_ssl` is set
to true, after all override merging has happened. -/
def ingressHttpsServiceDef (opts : IngressOptions) (d : IngressObject)
    (rule : IngressRule) (base : String) : ServiceDef IngressObject :=
  let m := ingressHttpServiceDef opts d rule base
  { m with display_name := m.display_name ++ "s", vars_http_ssl := some true }

/-- The calls of one rule-path pair: the http service, then, when the
ingress declares tls, the https variant. -/
def ingressPairCalls (opts : IngressOptions) (workerNodes : List String) (d : IngressObject)
    (hostname : String) (templates : List String) (rule : IngressRule) (p : IngressPath) :
    List (Call IngressObject) :=
  let base := ingressPathBase p
  ingressApplyService opts workerNodes hostname
      (escapeName (rule.host ++ "-" ++ "http" ++ "-" ++ base))
      (ingressHttpServiceDef opts d rule base) templates
    ++ (if d.spec.tls then
          ingressApplyService opts workerNodes hostname
            (escapeName (rule.host ++ "-" ++ "https" ++ "-" ++ base))
            (ingressHttpsServiceDef opts d rule base) templates
        else [])

/-- `Ingress.prepareObject`: the synthetic host unless attached to nodes,
then, when `applyServices` is set, the namespace service group followed by
the services of every rule-path pair. -/
def ingressPrepareObject (opts : IngressOptions) (workerNodes : List String) (d : IngressObject) :
    List (Call IngressObject) :=
  let hostname := ingressHostname d
  let templates := opts.serviceTemplates ++ prepareTemplates d.metadata.annotations
  (if !opts.attachToNodes then
      [Call.applyHost (some hostname) (ingressHostDef opts hostname d.metadata.name d) opts.hostTemplates]
    else [])
  ++ (if opts.applyServices then
        Call.applyServiceGroup d.metadata.namespace_
          :: d.spec.rules.flatMap fun rule =>
              rule.http.paths.flatMap (ingressPairCalls opts workerNodes d hostname templates rule)
      else [])

/-- One step of `Ingress.kubeListener`: events whose object kind is not
Ingress are dropped; MODIFIED and DELETED events first delete the host
under the raw metadata name; ADDED and MODIFIED events then run
`prepareObject`. -/
def ingressKubeListenerStep (opts : IngressOptions) (workerNodes : List String)
    (ev : WatchEvent IngressObject) : List (Call IngressObject) :=
  if ev.object.kind ≠ "Ingress" then []
  else
    (if ev.type = "MODIFIED" ∨ ev.type = "DELETED" then
        [Call.deleteHost (some ev.object.metadata.name)]
      else [])
    ++ (if ev.type = "ADDED" ∨ ev.type = "MODIFIED" then
          ingressPrepareObject opts workerNodes ev.object
        else [])

/-! ## Volume translator (src/kube/volume.ts) -/

structure ClaimRef where
  namespace_ : Option String := none
  deriving DecidableEq

structure VolumeSpec where
  claimRef : Option ClaimRef := none
  deriving DecidableEq

/-- Metadata of a decoded persistent volume.  Modelled from the spec: the
annotation-driven per-object override mapping read by `prepareResource`
(not among the given sources) is carried, already decoded, as the
`resourceOverrides` component. -/
structure VolumeMetadata where
  name : Option String := none
  uid : Option String := none
  annotations : List (String × String) := []
  resourceOverrides : ServiceOverrides := {}
  deriving DecidableEq

structure PersistentVolume where
  metadata : Option VolumeMetadata := none
  spec : Option VolumeSpec := none
  deriving DecidableEq

structure VolumeOptions where
  discover : Bool := true
  applyServices : Bool := true
  attachToNodes : Bool := false
  hostName : Option String := some "kubernetes-volumes"
  hostDefinition : HostOverrides := {}
  serviceDefinition : ServiceOverrides := {}
  hostTemplates : List String := []
  serviceTemplates : List String := []
  deriving DecidableEq

def volumeDefaultOptions : VolumeOptions := {}

/-- Modelled from the spec: `getAnnotations` of the Naming and Template
Helper is not among the given sources; per the spec it returns the object's
annotation mapping or an empty mapping if absent, and never fails. -/
def getAnnotations (d : PersistentVolume) : List (String × String) :=
  match d.metadata with
  | some m => m.annotations
  | none => []

/-- Modelled from the spec: `prepareResource` of the Naming and Template
Helper is not among the given sources; per the spec it reads an
annotation-driven set of ad-hoc override fields to merge into the generated
definition, carried here as the `resourceOverrides` metadata component. -/
def volumePrepareResource (d : PersistentVolume) : ServiceOverrides :=
  match d.metadata with
  | some m => m.resourceOverrides
  | none => {}

/-- The two lower-precedence branches of `Volume.getHostname`: the
synthesized volume host name when the configured `hostName` is null and the
object carries a truthy name, the configured `hostName` otherwise. -/
def getHostnameDefault (opts : VolumeOptions) (d : PersistentVolume) : Option String :=
  match opts.hostName, d.metadata with
  | none, some m =>
    (match m.name with
     | some n => if n = "" then none else some (escapeName ("volume" ++ "-" ++ n))
     | none => none)
  | h, _ => h

/-- `Volume.getHostname`: a truthy kube-icinga/host annotation wins,
otherwise `getHostnameDefault`. -/
def getHostname (opts : VolumeOptions) (d : PersistentVolume) : Option String :=
  match (getAnnotations d).lookup "kube-icinga/host" with
  | some v => if v = "" then getHostnameDefault opts d else some v
  | none => getHostnameDefault opts d

/-- `Volume.applyHost`: the computed dummy-check host definition with the
configured `hostDefinition` merged on top; called with the resolved
hostname as both name and address. -/
def volumeApplyHostDef (opts : VolumeOptions) (hostname : Option String) (d : PersistentVolume) :
    HostDef PersistentVolume :=
  mergeHost
    { display_name := hostname
      address := hostname
      check_command := "dummy"
      vars_dummy_state := some 0
      vars_kubernetes_flag := true
      vars_kubernetes := d }
    opts.hostDefinition

/-- The host calls issued at the start of `Volume.prepareObject`: one
`applyHost` at the resolved hostname unless attached to nodes. -/
def volumeHostCalls (opts : VolumeOptions) (d : PersistentVolume) : List (Call PersistentVolume) :=
  if !opts.attachToNodes then
    [Call.applyHost (getHostname opts d) (volumeApplyHostDef opts (getHostname opts d) d) opts.hostTemplates]
  else []

/-- `Volume.applyService`: with `attachToNodes` the definition is applied
once per worker node with `host_name` mutated to the node, otherwise once
against the given host. -/
def volumeApplyService (opts : VolumeOptions) (workerNodes : List String)
    (host : Option String) (name : String) (defn : ServiceDef PersistentVolume)
    (templates : List String) : List (Call PersistentVolume) :=
  if opts.attachToNodes then
    workerNodes.map fun node =>
      Call.applyService (some node) name { defn with host_name := some node } templates
  else
    [Call.applyService host name { defn with host_name := host } templates]

/-- The volume service definition: computed fields, then the configured
`serviceDefinition`, then the per-object annotation override, later keys
replacing earlier ones. -/
def volumeServiceDef (opts : VolumeOptions) (d : PersistentVolume) (nm : String)
    (groups : List String) : ServiceDef PersistentVolume :=
  mergeService
    (mergeService
      { check_command := "dummy"
        display_name := nm ++ ":volume"
        vars_kubernetes_flag := true
        vars_kubernetes := d
        groups := groups }
      opts.serviceDefinition)
    (volumePrepareResource d)

/-- `Volume.prepareObject`: resolves the hostname, applies the host unless
attached to nodes, then validates that `metadata.name` is truthy (a
per-object error otherwise), then, when `applyServices` is set, reads
`spec.claimRef.namespace` through two unchecked accesses (a TypeError when
`spec` or `claimRef` is undefined), applies the claim-namespace service
group when that namespace is truthy and finally applies the service.
Returns the issued calls together with the error the JavaScript code would
throw. -/
def volumePrepareObject (opts : VolumeOptions) (workerNodes : List String) (d : PersistentVolume) :
    List (Call PersistentVolume) × Option String :=
  let hostCalls := volumeHostCalls opts d
  match d.metadata with
  | none => (hostCalls, some "resource name in metadata is required")
  | some m =>
    match m.name with
    | none => (hostCalls, some "resource name in metadata is required")
    | some nm =>
      if nm = "" then (hostCalls, some "resource name in metadata is required")
      else if opts.applyServices then
        match d.spec with
        | none => (hostCalls, some "TypeError: cannot read claimRef of undefined")
        | some sp =>
          match sp.claimRef with
          | none => (hostCalls, some "TypeError: cannot read namespace of undefined")
          | some cr =>
            let groupData : List String × List (Call PersistentVolume) :=
              match cr.namespace_ with
              | some ns => if ns = "" then ([], []) else ([ns], [Call.applyServiceGroup ns])
              | none => ([], [])
            let templates := opts.serviceTemplates ++ prepareTemplates (getAnnotations d)
            let svcCalls := volumeApplyService opts workerNodes (getHostname opts d)
              (escapeName nm) (volumeServiceDef opts d nm groupData.1) templates
            (hostCalls ++ groupData.2 ++ svcCalls, none)
      else (hostCalls, none)

/-- `Volume.deleteObject`: keyed off configuration alone; with a null
configured `hostName` the resolved host is deleted, otherwise all services
whose recorded kubernetes uid matches are deleted (an unchecked metadata
access, a TypeError when `metadata` is undefined; an undefined uid is
interpolated as the text undefined). -/
def volumeDeleteObject (opts : VolumeOptions) (d : PersistentVolume) :
    List (Call PersistentVolume) × Option String :=
  if opts.hostName = none then
    ([Call.deleteHost (getHostname opts d)], none)
  else
    match d.metadata with
    | none => ([], some "TypeError: cannot read uid of undefined")
    | some m =>
      ([Call.deleteServicesByFilter
          ("service.vars.kubernetes.metadata.uid==\"" ++ jsConcatValue m.uid ++ "\"")], none)

/-- Modelled from the spec: `handleResource` of the shared translator
contract is not among the given sources; per the spec it routes ADDED and
MODIFIED events to `prepareObject` unless `discover` is false (in which
case the event is ignored entirely), routes DELETED events to
`deleteObject`, and catches a translation failure so that it never aborts
the watch loop: the calls issued before the failure stand, the error is
only reported. -/
def handleVolumeResource (opts : VolumeOptions) (workerNodes : List String)
    (ev : WatchEvent PersistentVolume) : List (Call PersistentVolume) :=
  if ev.type = "ADDED" ∨ ev.type = "MODIFIED" then
    if opts.discover then (volumePrepareObject opts workerNodes ev.object).1 else []
  else if ev.type = "DELETED" then (volumeDeleteObject opts ev.object).1
  else []

/-- The calls issued while the Volume listener consumes a whole sequence of
events; a per-object failure never stops the sequence. -/
def volumeProcessEvents (opts : VolumeOptions) (workerNodes : List String)
    (evs : List (WatchEvent PersistentVolume)) : List (Call PersistentVolume) :=
  evs.flatMap (handleVolumeResource opts workerNodes)

/-! ## Helper lemmas -/

theorem escapeName_length (s : String) : (escapeName s).length = s.length := by
  show (s.data.map escapeChar).length = s.length
  rw [List.length_map]
  rfl

theorem escapeName_append (s t : String) : escapeName (s ++ t) = escapeName s ++ escapeName t := by
  cases s with
  | mk a =>
    cases t with
    | mk b =>
      show String.mk ((a ++ b).map escapeChar) = String.mk (a.map escapeChar ++ b.map escapeChar)
      rw [List.map_append]

theorem escapeName_volume_dash : escapeName "volume-" = "volume-" := by decide

/-! ## Concrete sample objects used by witnesses and counterexamples -/

def wNodeA : NodeObject := { metadata := { name := "node-a" }, spec := { unschedulable := false } }

def wNodeB : NodeObject := { metadata := { name := "node-b" }, spec := { unschedulable := true } }

/-! ## Claims -/

/-- C1: the Worker Node Registry is a function of the processed Node event
sequence: a Node ADDED event whose object's `spec.unschedulable` is falsy
appends that node's `metadata.name` to the registry returned by
`getWorkerNodes`; an event whose object has `unschedulable` true never adds
an entry; and no operation (including `deleteObject` on a DELETED event)
ever removes an entry, so over any event sequence the registry only grows. -/
theorem node_registry_function_of_events (opts : NodeOptions) (nodes : List String)
    (ev1 ev2 : WatchEvent NodeObject) (evs : List (WatchEvent NodeObject))
    (hdisc : opts.discover = true)
    (h1t : ev1.type = "ADDED") (h1u : ev1.object.spec.unschedulable = false)
    (h2u : ev2.object.spec.unschedulable = true) :
    getWorkerNodes (nodeKubeListenerStep opts nodes ev1).1
        = getWorkerNodes nodes ++ [ev1.object.metadata.name]
    ∧ getWorkerNodes (nodeKubeListenerStep opts nodes ev2).1 = getWorkerNodes nodes
    ∧ ∃ t, getWorkerNodes (nodeProcessEvents opts nodes evs) = getWorkerNodes nodes ++ t := by
  refine ⟨?_, ?_, ?_⟩
  · simp [nodeKubeListenerStep, handleNodeResource, nodePrepareObject, getWorkerNodes,
      h1t, hdisc, h1u]
  · unfold getWorkerNodes nodeKubeListenerStep handleNodeResource nodePrepareObject nodeDeleteObject
    by_cases hm : ev2.type = "MODIFIED" <;> by_cases ha : ev2.type = "ADDED" <;>
      by_cases hd : ev2.type = "DELETED" <;> simp [hm, ha, hd, h2u, hdisc]
  · simpa [getWorkerNodes] using nodeProcessEvents_grows opts evs nodes

theorem node_registry_function_of_events_witness :
    nodeDefaultOptions.discover = true
    ∧ (getWorkerNodes (nodeKubeListenerStep nodeDefaultOptions [] ⟨"ADDED", wNodeA⟩).1
         = getWorkerNodes [] ++ [wNodeA.metadata.name]
       ∧ getWorkerNodes (nodeKubeListenerStep nodeDefaultOptions [] ⟨"DELETED", wNodeB⟩).1
         = getWorkerNodes []
       ∧ ∃ t, getWorkerNodes (nodeProcessEvents nodeDefaultOptions []
            [⟨"ADDED", wNodeA⟩, ⟨"DELETED", wNodeB⟩]) = getWorkerNodes [] ++ t) :=
  ⟨rfl, node_registry_function_of_events nodeDefaultOptions [] ⟨"ADDED", wNodeA⟩
    ⟨"DELETED", wNodeB⟩ [⟨"ADDED", wNodeA⟩, ⟨"DELETED", wNodeB⟩] rfl rfl rfl rfl⟩

/-- C2 counterexample: a MODIFIED Node event is returned from the listener
before any dispatch, so contrary to the claim no `applyHost` call is issued
for it: at this concrete MODIFIED event the listener issues no calls at all
(and leaves the registry untouched). -/
theorem node_modified_event_issues_no_calls_cex :
    nodeKubeListenerStep nodeDefaultOptions [] { type := "MODIFIED", object := wNodeA }
      = ([], []) := by
  rfl

/-- C2 amended: for every Node ADDED event (with discovery on and no
configured `hostDefinition` overrides) the translator builds a
MonitoringHost whose `check_command` is ping and whose `vars.kubernetes`
variable carries the full decoded object, and issues `applyHost` for it
unconditionally, regardless of schedulability; a MODIFIED Node event is
ignored entirely by the Node listener and issues no call. -/
theorem node_added_applies_ping_host (opts : NodeOptions) (nodes : List String)
    (ev mev : WatchEvent NodeObject)
    (hdisc : opts.discover = true) (hdef : opts.hostDefinition = {})
    (hadd : ev.type = "ADDED") (hmod : mev.type = "MODIFIED") :
    (nodeKubeListenerStep opts nodes ev).2
        = [Call.applyHost (some ev.object.metadata.name)
            { display_name := some ev.object.metadata.name
              address := some ev.object.metadata.name
              check_command := "ping"
              vars_dummy_state := none
              vars_kubernetes_flag := true
              vars_kubernetes := ev.object } opts.hostTemplates]
    ∧ nodeKubeListenerStep opts nodes mev = (nodes, []) := by
  constructor
  · simp [nodeKubeListenerStep, handleNodeResource, nodePrepareObject, hadd, hdisc, hdef,
      mergeHost]
  · simp [nodeKubeListenerStep, hmod]

theorem node_added_applies_ping_host_witness :
    nodeDefaultOptions.discover = true
    ∧ nodeDefaultOptions.hostDefinition = {}
    ∧ ((nodeKubeListenerStep nodeDefaultOptions [] ⟨"ADDED", wNodeB⟩).2
          = [Call.applyHost (some wNodeB.metadata.name)
              { display_name := some wNodeB.metadata.name
                address := some wNodeB.metadata.name
                check_command := "ping"
                vars_dummy_state := none
                vars_kubernetes_flag := true
                vars_kubernetes := wNodeB } nodeDefaultOptions.hostTemplates]
       ∧ nodeKubeListenerStep nodeDefaultOptions [] ⟨"MODIFIED", wNodeA⟩ = ([], [])) :=
  ⟨rfl, rfl, node_added_applies_ping_host nodeDefaultOptions [] ⟨"ADDED", wNodeB⟩
    ⟨"MODIFIED", wNodeA⟩ rfl rfl rfl rfl⟩

def wIng : IngressObject :=
  { kind := "Ingress"
    metadata := { name := "web", namespace_ := "default" }
    spec := { rules := [], tls := false } }

/-- C3: for every Ingress change event (an event whose embedded object kind
is Ingress): a MODIFIED event issues a `deleteHost` call followed by the
full recreation of the ingress's monitoring objects, a DELETED event issues
exactly the `deleteHost` call, an ADDED event issues exactly the
`prepareObject` calls, and any other event type issues nothing — so
`prepareObject` runs exactly on ADDED and MODIFIED and a MODIFIED event is
a delete followed by a recreate rather than an in-place update. -/
theorem ingress_dispatch (opts : IngressOptions) (workerNodes : List String)
    (e1 e2 e3 e4 : WatchEvent IngressObject)
    (hk1 : e1.object.kind = "Ingress") (ht1 : e1.type = "MODIFIED")
    (hk2 : e2.object.kind = "Ingress") (ht2 : e2.type = "DELETED")
    (hk3 : e3.object.kind = "Ingress") (ht3 : e3.type = "ADDED")
    (hk4 : e4.object.kind = "Ingress") (ht4a : e4.type ≠ "ADDED")
    (ht4b : e4.type ≠ "MODIFIED") (ht4c : e4.type ≠ "DELETED") :
    ingressKubeListenerStep opts workerNodes e1
        = Call.deleteHost (some e1.object.metadata.name)
            :: ingressPrepareObject opts workerNodes e1.object
    ∧ ingressKubeListenerStep opts workerNodes e2 = [Call.deleteHost (some e2.object.metadata.name)]
    ∧ ingressKubeListenerStep opts workerNodes e3 = ingressPrepareObject opts workerNodes e3.object
    ∧ ingressKubeListenerStep opts workerNodes e4 = [] := by
  refine ⟨?_, ?_, ?_, ?_⟩
  · simp [ingressKubeListenerStep, hk1, ht1]
  · simp [ingressKubeListenerStep, hk2, ht2]
  · simp [ingressKubeListenerStep, hk3, ht3]
  · simp [ingressKubeListenerStep, hk4, ht4a, ht4b, ht4c]

theorem ingress_dispatch_witness :
    (⟨"MODIFIED", wIng⟩ : WatchEvent IngressObject).object.kind = "Ingress"
    ∧ (ingressKubeListenerStep ingressDefaultOptions [] ⟨"MODIFIED", wIng⟩
        = Call.deleteHost (some wIng.metadata.name)
            :: ingressPrepareObject ingressDefaultOptions [] wIng
       ∧ ingressKubeListenerStep ingressDefaultOptions [] ⟨"DELETED", wIng⟩
        = [Call.deleteHost (some wIng.metadata.name)]
       ∧ ingressKubeListenerStep ingressDefaultOptions [] ⟨"ADDED", wIng⟩
        = ingressPrepareObject ingressDefaultOptions [] wIng
       ∧ ingressKubeListenerStep ingressDefaultOptions [] ⟨"BOOKMARK", wIng⟩ = []) :=
  ⟨by decide,
   ingress_dispatch ingressDefaultOptions [] ⟨"MODIFIED", wIng⟩ ⟨"DELETED", wIng⟩
     ⟨"ADDED", wIng⟩ ⟨"BOOKMARK", wIng⟩ rfl rfl rfl rfl rfl rfl rfl
     (by decide) (by decide) (by decide)⟩

/-- C4: for every Ingress event of type MODIFIED or DELETED, the argument
passed to `deleteHost` is the object's raw `metadata.name`, which differs
from the synthesized host name (escape of the dash-join of ingress,
namespace and name) under which `prepareObject` applies the host, for every
object with a non-empty namespace. -/
theorem ingress_delete_uses_raw_name (opts : IngressOptions) (workerNodes : List String)
    (ev : WatchEvent IngressObject)
    (hk : ev.object.kind = "Ingress")
    (ht : ev.type = "MODIFIED" ∨ ev.type = "DELETED")
    (_hns : ev.object.metadata.namespace_ ≠ "")
    (hattach : opts.attachToNodes = false) :
    (ingressKubeListenerStep opts workerNodes ev).head?
        = some (Call.deleteHost (some ev.object.metadata.name))
    ∧ (ingressPrepareObject opts workerNodes ev.object).head?
        = some (Call.applyHost (some (ingressHostname ev.object))
            (ingressHostDef opts (ingressHostname ev.object) ev.object.metadata.name ev.object)
            opts.hostTemplates)
    ∧ ev.object.metadata.name ≠ ingressHostname ev.object := by
  refine ⟨?_, ?_, ?_⟩
  · rcases ht with ht | ht <;> simp [ingressKubeListenerStep, hk, ht]
  · simp [ingressPrepareObject, hattach]
  · intro heq
    have hlen : ev.object.metadata.name.length = (ingressHostname ev.object).length :=
      congrArg String.length heq
    have h7 : ("ingress" : String).length = 7 := rfl
    have hd : ("-" : String).length = 1 := rfl
    simp [ingressHostname, escapeName_length, String.length_append, h7, hd] at hlen

def wIngB : IngressObject :=
  { kind := "Ingress"
    metadata := { name := "shop", namespace_ := "prod" }
    spec := { rules := [], tls := false } }

theorem ingress_delete_uses_raw_name_witness :
    wIngB.metadata.namespace_ ≠ ""
    ∧ ((ingressKubeListenerStep ingressDefaultOptions [] ⟨"DELETED", wIngB⟩).head?
        = some (Call.deleteHost (some wIngB.metadata.name))
       ∧ (ingressPrepareObject ingressDefaultOptions [] wIngB).head?
        = some (Call.applyHost (some (ingressHostname wIngB))
            (ingressHostDef ingressDefaultOptions (ingressHostname wIngB) wIngB.metadata.name wIngB)
            ingressDefaultOptions.hostTemplates)
       ∧ wIngB.metadata.name ≠ ingressHostname wIngB) :=
  ⟨by decide,
   ingress_delete_uses_raw_name ingressDefaultOptions [] ⟨"DELETED", wIngB⟩ rfl
     (Or.inr rfl) (by decide) rfl⟩

/-- A volume whose kube-icinga/host annotation is present with an empty
value, together with a pooled configuration. -/
def wVolEmptyAnn : PersistentVolume :=
  { metadata := some { name := some "pv9", annotations := [("kube-icinga/host", "")] } }

def wPoolOpts : VolumeOptions := { hostName := some "pool" }

/-- C5 counterexample: the kube-icinga/host annotation of this volume is
present (with the empty string as value), yet `getHostname` does not return
its value: the empty value is falsy in JavaScript and resolution falls
through to the configured host name pool. -/
theorem volume_hostname_empty_annotation_cex :
    (getAnnotations wVolEmptyAnn).lookup "kube-icinga/host" = some ""
    ∧ getHostname wPoolOpts wVolEmptyAnn = some "pool"
    ∧ (some "pool" : Option String) ≠ some "" := by
  refine ⟨rfl, rfl, by decide⟩

/-- C5 amended: `getHostname` resolves in strict precedence order: a
kube-icinga/host annotation that is present with a non-empty (truthy) value
is returned; otherwise, when the configured `hostName` is null and the
object carries a non-empty `metadata.name`, the result is volume- followed
by the escaped object name; otherwise the configured `hostName` is
returned, so with `hostName` pool every volume without such an annotation
resolves to pool regardless of its own name. -/
theorem volume_hostname_resolution (o1 o2 o3 : VolumeOptions)
    (d1 d2 d3 : PersistentVolume) (v n h : String) (m2 : VolumeMetadata)
    (ha1 : (getAnnotations d1).lookup "kube-icinga/host" = some v) (hv : v ≠ "")
    (ha2 : (getAnnotations d2).lookup "kube-icinga/host" = none)
    (ho1 : o1.hostName = none) (hm2 : d2.metadata = some m2)
    (hn2 : m2.name = some n) (hne : n ≠ "")
    (ha3 : (getAnnotations d3).lookup "kube-icinga/host" = none)
    (ho2 : o2.hostName = some h) :
    getHostname o3 d1 = some v
    ∧ getHostname o1 d2 = some ("volume-" ++ escapeName n)
    ∧ getHostname o2 d3 = some h := by
  refine ⟨?_, ?_, ?_⟩
  · simp [getHostname, ha1, hv]
  · have hdist : escapeName ("volume-" ++ n) = "volume-" ++ escapeName n := by
      rw [escapeName_append, escapeName_volume_dash]
    simp [getHostname, ha2, getHostnameDefault, ho1, hm2, hn2, hne, hdist]
  · simp [getHostname, ha3, getHostnameDefault, ho2]

def wVolNamedMeta : VolumeMetadata := { name := some "data-disk", uid := some "u-77" }

def wVolNamed : PersistentVolume := { metadata := some wVolNamedMeta }

def wVolAnnOverrideMeta : VolumeMetadata :=
  { name := some "x", annotations := [("kube-icinga/host", "override-host")] }

def wVolAnnOverride : PersistentVolume := { metadata := some wVolAnnOverrideMeta }

def wVolNullHostOpts : VolumeOptions := { hostName := none }

theorem volume_hostname_resolution_witness :
    ("override-host" : String) ≠ ""
    ∧ ("data-disk" : String) ≠ ""
    ∧ (getHostname wPoolOpts wVolAnnOverride = some "override-host"
       ∧ getHostname wVolNullHostOpts wVolNamed = some ("volume-" ++ escapeName "data-disk")
       ∧ getHostname wPoolOpts wVolNamed = some "pool") :=
  ⟨by decide, by decide,
   volume_hostname_resolution wVolNullHostOpts wPoolOpts wPoolOpts
     wVolAnnOverride wVolNamed wVolNamed "override-host" "data-disk" "pool"
     wVolNamedMeta rfl (by decide) rfl rfl rfl rfl (by decide) rfl rfl⟩

/-- C6: `Volume.deleteObject` is keyed off configuration, not event
content: with a null configured `hostName` it issues exactly one
`deleteHost` call for the resolved host name and no other call; with a
configured `hostName` it issues exactly one `deleteServicesByFilter` call
whose filter string contains the deleted object's `metadata.uid`, and no
`deleteHost` call. -/
theorem volume_delete_policy (o1 o2 : VolumeOptions) (d : PersistentVolume)
    (m : VolumeMetadata) (h u : String)
    (h1 : o1.hostName = none)
    (h2 : o2.hostName = some h) (hm : d.metadata = some m) (hu : m.uid = some u) :
    (volumeDeleteObject o1 d).1 = [Call.deleteHost (getHostname o1 d)]
    ∧ (volumeDeleteObject o1 d).2 = none
    ∧ (volumeDeleteObject o2 d).1
        = [Call.deleteServicesByFilter
            ("service.vars.kubernetes.metadata.uid==\"" ++ u ++ "\"")]
    ∧ (volumeDeleteObject o2 d).2 = none
    ∧ (∃ a b, ("service.vars.kubernetes.metadata.uid==\"" ++ u ++ "\"" : String)
          = a ++ u ++ b) := by
  refine ⟨?_, ?_, ?_, ?_, ?_⟩
  · simp [volumeDeleteObject, h1]
  · simp [volumeDeleteObject, h1]
  · simp [volumeDeleteObject, h2, hm, hu, jsConcatValue]
  · simp [volumeDeleteObject, h2, hm]
  · exact ⟨"service.vars.kubernetes.metadata.uid==\"", "\"", rfl⟩

theorem volume_delete_policy_witness :
    wVolNullHostOpts.hostName = none
    ∧ wPoolOpts.hostName = some "pool"
    ∧ ((volumeDeleteObject wVolNullHostOpts wVolNamed).1
          = [Call.deleteHost (getHostname wVolNullHostOpts wVolNamed)]
       ∧ (volumeDeleteObject wVolNullHostOpts wVolNamed).2 = none
       ∧ (volumeDeleteObject wPoolOpts wVolNamed).1
          = [Call.deleteServicesByFilter
              ("service.vars.kubernetes.metadata.uid==\"" ++ "u-77" ++ "\"")]
       ∧ (volumeDeleteObject wPoolOpts wVolNamed).2 = none
       ∧ (∃ a b, ("service.vars.kubernetes.metadata.uid==\"" ++ "u-77" ++ "\"" : String)
            = a ++ "u-77" ++ b)) :=
  ⟨rfl, rfl,
   volume_delete_policy wVolNullHostOpts wPoolOpts wVolNamed
     { name := some "data-disk", uid := some "u-77" } "pool" "u-77" rfl rfl rfl rfl⟩

theorem serviceDisplayNames_volumeHostCalls (opts : VolumeOptions) (d : PersistentVolume) :
    serviceDisplayNames (volumeHostCalls opts d) = [] := by
  unfold volumeHostCalls
  cases opts.attachToNodes <;> simp [serviceDisplayNames]

theorem serviceGroupNames_volumeHostCalls (opts : VolumeOptions) (d : PersistentVolume) :
    serviceGroupNames (volumeHostCalls opts d) = [] := by
  unfold volumeHostCalls
  cases opts.attachToNodes <;> simp [serviceGroupNames]

theorem serviceGroupNames_append {α : Type} (l1 l2 : List (Call α)) :
    serviceGroupNames (l1 ++ l2) = serviceGroupNames l1 ++ serviceGroupNames l2 := by
  simp [serviceGroupNames]

theorem serviceGroupNames_group_cons {α : Type} (ns : String) (l : List (Call α)) :
    serviceGroupNames (Call.applyServiceGroup ns :: l) = ns :: serviceGroupNames l := by
  simp [serviceGroupNames]

theorem serviceGroupNames_volumeApplyService (opts : VolumeOptions) (workerNodes : List String)
    (host : Option String) (name : String) (defn : ServiceDef PersistentVolume)
    (templates : List String) :
    serviceGroupNames (volumeApplyService opts workerNodes host name defn templates) = [] := by
  unfold volumeApplyService
  cases opts.attachToNodes <;> simp [serviceGroupNames, List.filterMap_map, Function.comp]

def wVolNoMeta : PersistentVolume := {}

/-- C9: a Volume object whose `metadata.name` is missing fails
`prepareObject` with the per-object validation error; no service and no
service-group apply call is issued for it, and the watch loop goes on with
the next event. -/
theorem volume_missing_name_aborts (opts : VolumeOptions) (workerNodes : List String)
    (d : PersistentVolume) (t : String) (rest : List (WatchEvent PersistentVolume))
    (hbad : d.metadata = none
      ∨ ∃ m, d.metadata = some m ∧ (m.name = none ∨ m.name = some "")) :
    (volumePrepareObject opts workerNodes d).2 = some "resource name in metadata is required"
    ∧ serviceDisplayNames (volumePrepareObject opts workerNodes d).1 = []
    ∧ serviceGroupNames (volumePrepareObject opts workerNodes d).1 = []
    ∧ volumeProcessEvents opts workerNodes ({ type := t, object := d } :: rest)
        = handleVolumeResource opts workerNodes { type := t, object := d }
            ++ volumeProcessEvents opts workerNodes rest := by
  have hcalls : (volumePrepareObject opts workerNodes d).1 = volumeHostCalls opts d
      ∧ (volumePrepareObject opts workerNodes d).2
          = some "resource name in metadata is required" := by
    rcases hbad with hnone | ⟨m, hm, hname⟩
    · simp [volumePrepareObject, hnone]
    · rcases hname with hn | hn <;> simp [volumePrepareObject, hm, hn]
  refine ⟨hcalls.2, ?_, ?_, ?_⟩
  · rw [hcalls.1, serviceDisplayNames_volumeHostCalls]
  · rw [hcalls.1, serviceGroupNames_volumeHostCalls]
  · simp [volumeProcessEvents]

theorem volume_missing_name_aborts_witness :
    wVolNoMeta.metadata = none
    ∧ ((volumePrepareObject volumeDefaultOptions [] wVolNoMeta).2
        = some "resource name in metadata is required"
       ∧ serviceDisplayNames (volumePrepareObject volumeDefaultOptions [] wVolNoMeta).1 = []
       ∧ serviceGroupNames (volumePrepareObject volumeDefaultOptions [] wVolNoMeta).1 = []
       ∧ volumeProcessEvents volumeDefaultOptions [] [⟨"ADDED", wVolNoMeta⟩]
          = handleVolumeResource volumeDefaultOptions [] ⟨"ADDED", wVolNoMeta⟩
              ++ volumeProcessEvents volumeDefaultOptions [] []) :=
  ⟨rfl, volume_missing_name_aborts volumeDefaultOptions [] wVolNoMeta "ADDED" []
    (Or.inl rfl)⟩

def wVolNoClaimRefMeta : VolumeMetadata := { name := some "pv1", uid := some "u1" }

def wVolNoClaimRef : PersistentVolume :=
  { metadata := some wVolNoClaimRefMeta, spec := some { claimRef := none } }

/-- C10 counterexample: for this Volume `spec.claimRef` itself is missing,
so the claim namespace is absent, yet contrary to the claim the service is
not applied: the unchecked access to `claimRef.namespace` throws, the
object's translation ends in an error and no `applyService` call is
issued. -/
theorem volume_missing_claimref_cex :
    volumeDefaultOptions.applyServices = true
    ∧ (volumePrepareObject volumeDefaultOptions [] wVolNoClaimRef).2
        = some "TypeError: cannot read namespace of undefined"
    ∧ serviceDisplayNames (volumePrepareObject volumeDefaultOptions [] wVolNoClaimRef).1 = [] :=
  ⟨rfl, rfl, rfl⟩

/-- C10 amended: with `applyServices` true and a valid object name: when
`spec.claimRef` is present and its namespace is a truthy string, exactly
one `applyServiceGroup` call named after that namespace is issued before
the service; when `spec.claimRef` is present but its namespace is absent,
no service group is applied and the volume's service is still applied
without error; when `spec.claimRef` itself (or `spec`) is missing, the
unchecked namespace access fails the object's translation with a TypeError
and no service is applied. -/
theorem volume_claim_namespace_group (opts : VolumeOptions) (workerNodes : List String)
    (d1 d2 d3 : PersistentVolume) (m1 m2 m3 : VolumeMetadata) (n1 n2 n3 : String)
    (sp1 sp2 sp3 : VolumeSpec) (cr1 cr2 : ClaimRef) (ns : String)
    (happly : opts.applyServices = true)
    (hm1 : d1.metadata = some m1) (hn1 : m1.name = some n1) (hne1 : n1 ≠ "")
    (hs1 : d1.spec = some sp1) (hc1 : sp1.claimRef = some cr1)
    (hns1 : cr1.namespace_ = some ns) (hnse : ns ≠ "")
    (hm2 : d2.metadata = some m2) (hn2 : m2.name = some n2) (hne2 : n2 ≠ "")
    (hs2 : d2.spec = some sp2) (hc2 : sp2.claimRef = some cr2)
    (hns2 : cr2.namespace_ = none)
    (hm3 : d3.metadata = some m3) (hn3 : m3.name = some n3) (hne3 : n3 ≠ "")
    (hs3 : d3.spec = some sp3) (hc3 : sp3.claimRef = none) :
    ((volumePrepareObject opts workerNodes d1).2 = none
      ∧ serviceGroupNames (volumePrepareObject opts workerNodes d1).1 = [ns]
      ∧ (volumePrepareObject opts workerNodes d1).1
          = volumeHostCalls opts d1 ++ Call.applyServiceGroup ns
              :: volumeApplyService opts workerNodes (getHostname opts d1) (escapeName n1)
                  (volumeServiceDef opts d1 n1 [ns])
                  (opts.serviceTemplates ++ prepareTemplates (getAnnotations d1)))
    ∧ ((volumePrepareObject opts workerNodes d2).2 = none
      ∧ serviceGroupNames (volumePrepareObject opts workerNodes d2).1 = []
      ∧ (volumePrepareObject opts workerNodes d2).1
          = volumeHostCalls opts d2
              ++ volumeApplyService opts workerNodes (getHostname opts d2) (escapeName n2)
                  (volumeServiceDef opts d2 n2 [])
                  (opts.serviceTemplates ++ prepareTemplates (getAnnotations d2)))
    ∧ ((volumePrepareObject opts workerNodes d3).2
          = some "TypeError: cannot read namespace of undefined"
      ∧ serviceDisplayNames (volumePrepareObject opts workerNodes d3).1 = []) := by
  have hlist1 : (volumePrepareObject opts workerNodes d1).1
      = volumeHostCalls opts d1 ++ Call.applyServiceGroup ns
          :: volumeApplyService opts workerNodes (getHostname opts d1) (escapeName n1)
              (volumeServiceDef opts d1 n1 [ns])
              (opts.serviceTemplates ++ prepareTemplates (getAnnotations d1)) := by
    simp [volumePrepareObject, hm1, hn1, hne1, happly, hs1, hc1, hns1, hnse]
  have hlist2 : (volumePrepareObject opts workerNodes d2).1
      = volumeHostCalls opts d2
          ++ volumeApplyService opts workerNodes (getHostname opts d2) (escapeName n2)
              (volumeServiceDef opts d2 n2 [])
              (opts.serviceTemplates ++ prepareTemplates (getAnnotations d2)) := by
    simp [volumePrepareObject, hm2, hn2, hne2, happly, hs2, hc2, hns2]
  refine ⟨⟨?_, ?_, hlist1⟩, ⟨?_, ?_, hlist2⟩, ?_, ?_⟩
  · simp [volumePrepareObject, hm1, hn1, hne1, happly, hs1, hc1, hns1, hnse]
  · rw [hlist1, serviceGroupNames_append, serviceGroupNames_volumeHostCalls,
      serviceGroupNames_group_cons, serviceGroupNames_volumeApplyService]
    rfl
  · simp [volumePrepareObject, hm2, hn2, hne2, happly, hs2, hc2, hns2]
  · rw [hlist2, serviceGroupNames_append, serviceGroupNames_volumeHostCalls,
      serviceGroupNames_volumeApplyService]
    rfl
  · simp [volumePrepareObject, hm3, hn3, hne3, happly, hs3, hc3]
  · have h3 : (volumePrepareObject opts workerNodes d3).1 = volumeHostCalls opts d3 := by
      simp [volumePrepareObject, hm3, hn3, hne3, happly, hs3, hc3]
    rw [h3, serviceDisplayNames_volumeHostCalls]

def wVolClaimMeta : VolumeMetadata := { name := some "pv-a", uid := some "ua" }

def wVolClaim : PersistentVolume :=
  { metadata := some wVolClaimMeta
    spec := some { claimRef := some { namespace_ := some "team-a" } } }

def wVolClaimNoNsMeta : VolumeMetadata := { name := some "pv-b", uid := some "ub" }

def wVolClaimNoNs : PersistentVolume :=
  { metadata := some wVolClaimNoNsMeta, spec := some { claimRef := some {} } }

theorem volume_claim_namespace_group_witness :
    volumeDefaultOptions.applyServices = true
    ∧ ("team-a" : String) ≠ ""
    ∧ (((volumePrepareObject volumeDefaultOptions [] wVolClaim).2 = none
        ∧ serviceGroupNames (volumePrepareObject volumeDefaultOptions [] wVolClaim).1
            = ["team-a"]
        ∧ (volumePrepareObject volumeDefaultOptions [] wVolClaim).1
            = volumeHostCalls volumeDefaultOptions wVolClaim
                ++ Call.applyServiceGroup "team-a"
                  :: volumeApplyService volumeDefaultOptions []
                      (getHostname volumeDefaultOptions wVolClaim) (escapeName "pv-a")
                      (volumeServiceDef volumeDefaultOptions wVolClaim "pv-a" ["team-a"])
                      (volumeDefaultOptions.serviceTemplates
                        ++ prepareTemplates (getAnnotations wVolClaim)))
      ∧ ((volumePrepareObject volumeDefaultOptions [] wVolClaimNoNs).2 = none
        ∧ serviceGroupNames (volumePrepareObject volumeDefaultOptions [] wVolClaimNoNs).1 = []
        ∧ (volumePrepareObject volumeDefaultOptions [] wVolClaimNoNs).1
            = volumeHostCalls volumeDefaultOptions wVolClaimNoNs
                ++ volumeApplyService volumeDefaultOptions []
                    (getHostname volumeDefaultOptions wVolClaimNoNs) (escapeName "pv-b")
                    (volumeServiceDef volumeDefaultOptions wVolClaimNoNs "pv-b" [])
                    (volumeDefaultOptions.serviceTemplates
                      ++ prepareTemplates (getAnnotations wVolClaimNoNs)))
      ∧ ((volumePrepareObject volumeDefaultOptions [] wVolNoClaimRef).2
            = some "TypeError: cannot read namespace of undefined"
        ∧ serviceDisplayNames (volumePrepareObject volumeDefaultOptions [] wVolNoClaimRef).1
            = [])) :=
  ⟨rfl, by decide,
   volume_claim_namespace_group volumeDefaultOptions [] wVolClaim wVolClaimNoNs wVolNoClaimRef
     wVolClaimMeta wVolClaimNoNsMeta wVolNoClaimRefMeta "pv-a" "pv-b" "pv1"
     { claimRef := some { namespace_ := some "team-a" } }
     { claimRef := some {} } { claimRef := none }
     { namespace_ := some "team-a" } {} "team-a"
     rfl rfl rfl (by decide) rfl rfl rfl (by decide)
     rfl rfl (by decide) rfl rfl rfl
     rfl rfl (by decide) rfl rfl⟩

theorem countP_ingressApplyService_service (opts : IngressOptions) (workerNodes : List String)
    (host name : String) (defn : ServiceDef IngressObject) (templates : List String)
    (hattach : opts.attachToNodes = false) :
    ((ingressApplyService opts workerNodes host name defn templates).countP
      fun c => c.isApplyService) = 1 := by
  simp [ingressApplyService, hattach, Call.isApplyService]

theorem countP_ingressApplyService_host (opts : IngressOptions) (workerNodes : List String)
    (host name : String) (defn : ServiceDef IngressObject) (templates : List String) :
    ((ingressApplyService opts workerNodes host name defn templates).countP
      fun c => c.isApplyHost) = 0 := by
  unfold ingressApplyService
  cases opts.attachToNodes <;> simp [Call.isApplyHost, List.countP_map, Function.comp]

theorem countP_ingressPairCalls_service (opts : IngressOptions) (workerNodes : List String)
    (d : IngressObject) (hostname : String) (templates : List String)
    (rule : IngressRule) (p : IngressPath)
    (hattach : opts.attachToNodes = false) (htls : d.spec.tls = true) :
    ((ingressPairCalls opts workerNodes d hostname templates rule p).countP
      fun c => c.isApplyService) = 2 := by
  rw [ingressPairCalls]
  simp only [htls, if_true, List.countP_append]
  rw [countP_ingressApplyService_service _ _ _ _ _ _ hattach,
    countP_ingressApplyService_service _ _ _ _ _ _ hattach]

theorem countP_ingressPairCalls_host (opts : IngressOptions) (workerNodes : List String)
    (d : IngressObject) (hostname : String) (templates : List String)
    (rule : IngressRule) (p : IngressPath) :
    ((ingressPairCalls opts workerNodes d hostname templates rule p).countP
      fun c => c.isApplyHost) = 0 := by
  rw [ingressPairCalls]
  cases d.spec.tls <;>
    simp [List.countP_append, countP_ingressApplyService_host]

theorem countP_paths_service (opts : IngressOptions) (workerNodes : List String)
    (d : IngressObject) (hostname : String) (templates : List String) (rule : IngressRule)
    (hattach : opts.attachToNodes = false) (htls : d.spec.tls = true) :
    ∀ ps : List IngressPath,
      ((ps.flatMap (ingressPairCalls opts workerNodes d hostname templates rule)).countP
        fun c => c.isApplyService) = 2 * ps.length := by
  intro ps
  induction ps with
  | nil => simp
  | cons p ps ih =>
    rw [List.flatMap_cons, List.countP_append, ih,
      countP_ingressPairCalls_service _ _ _ _ _ _ _ hattach htls, List.length_cons]
    ring

theorem countP_paths_host (opts : IngressOptions) (workerNodes : List String)
    (d : IngressObject) (hostname : String) (templates : List String) (rule : IngressRule) :
    ∀ ps : List IngressPath,
      ((ps.flatMap (ingressPairCalls opts workerNodes d hostname templates rule)).countP
        fun c => c.isApplyHost) = 0 := by
  intro ps
  induction ps with
  | nil => simp
  | cons p ps ih =>
    rw [List.flatMap_cons, List.countP_append, ih, countP_ingressPairCalls_host]

theorem countP_rules_service (opts : IngressOptions) (workerNodes : List String)
    (d : IngressObject) (hostname : String) (templates : List String)
    (hattach : opts.attachToNodes = false) (htls : d.spec.tls = true) :
    ∀ rs : List IngressRule,
      (((rs.flatMap fun rule =>
          rule.http.paths.flatMap (ingressPairCalls opts workerNodes d hostname templates rule)).countP
        fun c => c.isApplyService)) = 2 * (rs.map fun r => r.http.paths.length).sum := by
  intro rs
  induction rs with
  | nil => simp
  | cons r rs ih =>
    rw [List.flatMap_cons, List.countP_append, ih,
      countP_paths_service _ _ _ _ _ _ hattach htls, List.map_cons, List.sum_cons]
    ring

theorem countP_rules_host (opts : IngressOptions) (workerNodes : List String)
    (d : IngressObject) (hostname : String) (templates : List String) :
    ∀ rs : List IngressRule,
      (((rs.flatMap fun rule =>
          rule.http.paths.flatMap (ingressPairCalls opts workerNodes d hostname templates rule)).countP
        fun c => c.isApplyHost)) = 0 := by
  intro rs
  induction rs with
  | nil => simp
  | cons r rs ih =>
    rw [List.flatMap_cons, List.countP_append, ih, countP_paths_host]

/-- C8: an Ingress with `applyServices` true, `attachToNodes` false, exactly
two rule-path pairs in its spec and TLS declared produces exactly four
`applyService` calls (one http plus one https flavored service per pair)
and exactly one `applyHost` call. -/
theorem ingress_tls_two_pairs_fanout (opts : IngressOptions) (workerNodes : List String)
    (d : IngressObject)
    (ha : opts.applyServices = true) (hattach : opts.attachToNodes = false)
    (hp : (d.spec.rules.map fun r => r.http.paths.length).sum = 2)
    (htls : d.spec.tls = true) :
    ((ingressPrepareObject opts workerNodes d).countP fun c => c.isApplyService) = 4
    ∧ ((ingressPrepareObject opts workerNodes d).countP fun c => c.isApplyHost) = 1 := by
  have hsvc := countP_rules_service opts workerNodes d (ingressHostname d)
    (opts.serviceTemplates ++ prepareTemplates d.metadata.annotations) hattach htls d.spec.rules
  have hhost := countP_rules_host opts workerNodes d (ingressHostname d)
    (opts.serviceTemplates ++ prepareTemplates d.metadata.annotations) d.spec.rules
  have e1 : ∀ (n : Option String) (hd : HostDef IngressObject) (t : List String),
      (Call.applyHost n hd t).isApplyService = false := fun _ _ _ => rfl
  have e2 : ∀ n : String, (Call.applyServiceGroup n : Call IngressObject).isApplyService = false :=
    fun _ => rfl
  have e3 : ∀ (n : Option String) (hd : HostDef IngressObject) (t : List String),
      (Call.applyHost n hd t).isApplyHost = true := fun _ _ _ => rfl
  have e4 : ∀ n : String, (Call.applyServiceGroup n : Call IngressObject).isApplyHost = false :=
    fun _ => rfl
  constructor
  · simp [ingressPrepareObject, hattach, ha, List.countP_append, List.countP_cons,
      e1, e2, hsvc, hp]
  · simp [ingressPrepareObject, hattach, ha, List.countP_append, List.countP_cons,
      e3, e4, hhost]

def wRuleA : IngressRule :=
  { host := "a.example.com", http := { paths := [{ path := some "/x" }] } }

def wRuleB : IngressRule :=
  { host := "b.example.com", http := { paths := [{ path := some "/y" }] } }

def wIngTls : IngressObject :=
  { kind := "Ingress"
    metadata := { name := "web2", namespace_ := "default" }
    spec := { rules := [wRuleA, wRuleB], tls := true } }

theorem ingress_tls_two_pairs_fanout_witness :
    ingressDefaultOptions.applyServices = true
    ∧ ingressDefaultOptions.attachToNodes = false
    ∧ (wIngTls.spec.rules.map fun r => r.http.paths.length).sum = 2
    ∧ wIngTls.spec.tls = true
    ∧ (((ingressPrepareObject ingressDefaultOptions [] wIngTls).countP
          fun c => c.isApplyService) = 4
       ∧ ((ingressPrepareObject ingressDefaultOptions [] wIngTls).countP
          fun c => c.isApplyHost) = 1) :=
  ⟨rfl, rfl, rfl, rfl,
   ingress_tls_two_pairs_fanout ingressDefaultOptions [] wIngTls rfl rfl rfl rfl⟩

theorem serviceDisplayNames_append {α : Type} (l1 l2 : List (Call α)) :
    serviceDisplayNames (l1 ++ l2) = serviceDisplayNames l1 ++ serviceDisplayNames l2 := by
  simp [serviceDisplayNames]

theorem hostDisplayNames_append {α : Type} (l1 l2 : List (Call α)) :
    hostDisplayNames (l1 ++ l2) = hostDisplayNames l1 ++ hostDisplayNames l2 := by
  simp [hostDisplayNames]

theorem hostDisplayNames_group_cons {α : Type} (ns : String) (l : List (Call α)) :
    hostDisplayNames (Call.applyServiceGroup ns :: l) = hostDisplayNames l := by
  simp [hostDisplayNames]

theorem serviceDisplayNames_group_cons {α : Type} (ns : String) (l : List (Call α)) :
    serviceDisplayNames (Call.applyServiceGroup ns :: l) = serviceDisplayNames l := by
  simp [serviceDisplayNames]

theorem serviceDisplayNames_ingressApplyService (opts : IngressOptions)
    (workerNodes : List String) (host name : String) (defn : ServiceDef IngressObject)
    (templates : List String) (hattach : opts.attachToNodes = false) :
    serviceDisplayNames (ingressApplyService opts workerNodes host name defn templates)
      = [defn.display_name] := by
  simp [ingressApplyService, hattach, serviceDisplayNames]

theorem hostDisplayNames_ingressApplyService (opts : IngressOptions)
    (workerNodes : List String) (host name : String) (defn : ServiceDef IngressObject)
    (templates : List String) :
    hostDisplayNames (ingressApplyService opts workerNodes host name defn templates) = [] := by
  unfold ingressApplyService
  cases opts.attachToNodes <;> simp [hostDisplayNames, List.filterMap_map, Function.comp]

theorem ingressHttpServiceDef_display (opts : IngressOptions) (d : IngressObject)
    (rule : IngressRule) (base : String) (Y : String)
    (hY : d.metadata.resourceOverrides.display_name = some Y) :
    (ingressHttpServiceDef opts d rule base).display_name = Y := by
  simp [ingressHttpServiceDef, mergeService, hY]

theorem serviceDisplayNames_ingressPairCalls (opts : IngressOptions)
    (workerNodes : List String) (d : IngressObject) (hostname : String)
    (templates : List String) (rule : IngressRule) (p : IngressPath) (Y : String)
    (hattach : opts.attachToNodes = false)
    (hY : d.metadata.resourceOverrides.display_name = some Y) :
    serviceDisplayNames (ingressPairCalls opts workerNodes d hostname templates rule p)
      = if d.spec.tls then [Y, Y ++ "s"] else [Y] := by
  rw [ingressPairCalls]
  cases htls : d.spec.tls <;>
    simp [htls, serviceDisplayNames_append,
      serviceDisplayNames_ingressApplyService _ _ _ _ _ _ hattach,
      ingressHttpsServiceDef,
      ingressHttpServiceDef_display _ _ _ _ _ hY]

theorem hostDisplayNames_ingressPairCalls (opts : IngressOptions)
    (workerNodes : List String) (d : IngressObject) (hostname : String)
    (templates : List String) (rule : IngressRule) (p : IngressPath) :
    hostDisplayNames (ingressPairCalls opts workerNodes d hostname templates rule p) = [] := by
  rw [ingressPairCalls]
  cases d.spec.tls <;>
    simp [hostDisplayNames_append, hostDisplayNames_ingressApplyService]

theorem hostDisplayNames_ingress_services (opts : IngressOptions)
    (workerNodes : List String) (d : IngressObject) (hostname : String)
    (templates : List String) :
    ∀ rs : List IngressRule,
      hostDisplayNames (rs.flatMap fun rule =>
        rule.http.paths.flatMap (ingressPairCalls opts workerNodes d hostname templates rule))
      = [] := by
  intro rs
  induction rs with
  | nil => simp [hostDisplayNames]
  | cons r rs ih =>
    rw [List.flatMap_cons, hostDisplayNames_append, ih, List.append_nil]
    induction r.http.paths with
    | nil => simp [hostDisplayNames]
    | cons p ps ihp =>
      rw [List.flatMap_cons, hostDisplayNames_append, ihp, List.append_nil,
        hostDisplayNames_ingressPairCalls]

theorem serviceDisplayNames_paths_mem (opts : IngressOptions)
    (workerNodes : List String) (d : IngressObject) (hostname : String)
    (templates : List String) (rule : IngressRule) (Y : String)
    (hattach : opts.attachToNodes = false)
    (hY : d.metadata.resourceOverrides.display_name = some Y) :
    ∀ ps : List IngressPath, ∀ s ∈ serviceDisplayNames
        (ps.flatMap (ingressPairCalls opts workerNodes d hostname templates rule)),
      s = Y ∨ (d.spec.tls = true ∧ s = Y ++ "s") := by
  intro ps
  induction ps with
  | nil => simp [serviceDisplayNames]
  | cons p ps ih =>
    intro s hs
    rw [List.flatMap_cons, serviceDisplayNames_append, List.mem_append] at hs
    rcases hs with hs | hs
    · rw [serviceDisplayNames_ingressPairCalls _ _ _ _ _ _ _ _ hattach hY] at hs
      cases htls : d.spec.tls
      · rw [htls] at hs
        simp at hs
        exact Or.inl hs
      · rw [htls] at hs
        simp at hs
        rcases hs with hs | hs
        · exact Or.inl hs
        · exact Or.inr ⟨rfl, hs⟩
    · exact ih s hs

theorem serviceDisplayNames_ingress_services_mem (opts : IngressOptions)
    (workerNodes : List String) (d : IngressObject) (hostname : String)
    (templates : List String) (Y : String)
    (hattach : opts.attachToNodes = false)
    (hY : d.metadata.resourceOverrides.display_name = some Y) :
    ∀ rs : List IngressRule, ∀ s ∈ serviceDisplayNames (rs.flatMap fun rule =>
        rule.http.paths.flatMap (ingressPairCalls opts workerNodes d hostname templates rule)),
      s = Y ∨ (d.spec.tls = true ∧ s = Y ++ "s") := by
  intro rs
  induction rs with
  | nil => simp [serviceDisplayNames]
  | cons r rs ih =>
    intro s hs
    rw [List.flatMap_cons, serviceDisplayNames_append, List.mem_append] at hs
    rcases hs with hs | hs
    · exact serviceDisplayNames_paths_mem opts workerNodes d hostname templates r Y
        hattach hY r.http.paths s hs
    · exact ih s hs

theorem hostDisplayNames_nil {α : Type} : hostDisplayNames ([] : List (Call α)) = [] := rfl

theorem hostDisplayNames_applyHost_cons {α : Type} (n : Option String) (hd : HostDef α)
    (t : List String) (l : List (Call α)) :
    hostDisplayNames (Call.applyHost n hd t :: l) = hd.display_name :: hostDisplayNames l := by
  simp [hostDisplayNames]

theorem volumeServiceDef_display (opts : VolumeOptions) (d : PersistentVolume)
    (nm : String) (groups : List String) (Y : String)
    (hY : (volumePrepareResource d).display_name = some Y) :
    (volumeServiceDef opts d nm groups).display_name = Y := by
  simp [volumeServiceDef, mergeService, hY]

theorem serviceDisplayNames_volumeApplyService (opts : VolumeOptions)
    (workerNodes : List String) (host : Option String) (name : String)
    (defn : ServiceDef PersistentVolume) (templates : List String)
    (hattach : opts.attachToNodes = false) :
    serviceDisplayNames (volumeApplyService opts workerNodes host name defn templates)
      = [defn.display_name] := by
  simp [volumeApplyService, hattach, serviceDisplayNames]

theorem hostDisplayNames_volumeApplyService (opts : VolumeOptions)
    (workerNodes : List String) (host : Option String) (name : String)
    (defn : ServiceDef PersistentVolume) (templates : List String) :
    hostDisplayNames (volumeApplyService opts workerNodes host name defn templates) = [] := by
  unfold volumeApplyService
  cases opts.attachToNodes <;> simp [hostDisplayNames, List.filterMap_map, Function.comp]

def wOverrideOpts : IngressOptions := { serviceDefinition := { display_name := some "Z" } }

def wRuleC : IngressRule :=
  { host := "c.example.com", http := { paths := [{ path := some "/p" }] } }

def wIngTlsOv : IngressObject :=
  { kind := "Ingress"
    metadata := { name := "web3", namespace_ := "default" }
    spec := { rules := [wRuleC], tls := true } }

/-- C7 counterexample: with a configured `serviceDefinition` of
display_name Z and a TLS ingress, the applied https variant service's
display name is Zs, not Z: the listener appends the s after all override
merging, so the configured override does not survive into the final
applied definition, contrary to the claim's merge-precedence rule. -/
theorem ingress_https_mutation_cex :
    wOverrideOpts.serviceDefinition.display_name = some "Z"
    ∧ serviceDisplayNames (ingressPrepareObject wOverrideOpts [] wIngTlsOv) = ["Z", "Zs"]
    ∧ ("Zs" : String) ≠ "Z" := by
  refine ⟨rfl, by decide, by decide⟩

/-- C7 amended: merge precedence in every generated host or service
definition is computed fields first, then the configured
`hostDefinition`/`serviceDefinition` override, then (for services) the
per-object annotation override last — in particular a `hostDefinition`
display_name X yields X in every applied host definition, and an
annotation-override display_name Y yields Y in applied service
definitions — except the ingress https variant service, whose display name
is the merged display name with an s appended (and whose `vars.http_ssl`
is set) after the merges, so there the computed suffix wins over all
overrides. -/
theorem merge_precedence (nopts : NodeOptions) (iopts : IngressOptions)
    (vopts : VolumeOptions) (nodesN nodesI nodesV : List String)
    (nd : NodeObject) (idg : IngressObject) (vd : PersistentVolume)
    (X Y : String) (m : VolumeMetadata) (nm : String) (sp : VolumeSpec)
    (cr : ClaimRef) (ns : String)
    (hnd : nopts.hostDefinition.display_name = some X)
    (hid : iopts.hostDefinition.display_name = some X)
    (hvd : vopts.hostDefinition.display_name = some X)
    (hYv : (volumePrepareResource vd).display_name = some Y)
    (hYi : idg.metadata.resourceOverrides.display_name = some Y)
    (hiattach : iopts.attachToNodes = false)
    (hvattach : vopts.attachToNodes = false)
    (hvapply : vopts.applyServices = true)
    (hm : vd.metadata = some m) (hn : m.name = some nm) (hne : nm ≠ "")
    (hs : vd.spec = some sp) (hc : sp.claimRef = some cr)
    (hns : cr.namespace_ = some ns) (hnse : ns ≠ "") :
    hostDisplayNames (nodePrepareObject nopts nodesN nd).2 = [some X]
    ∧ hostDisplayNames (ingressPrepareObject iopts nodesI idg) = [some X]
    ∧ hostDisplayNames (volumePrepareObject vopts nodesV vd).1 = [some X]
    ∧ serviceDisplayNames (volumePrepareObject vopts nodesV vd).1 = [Y]
    ∧ (∀ s ∈ serviceDisplayNames (ingressPrepareObject iopts nodesI idg),
        s = Y ∨ (idg.spec.tls = true ∧ s = Y ++ "s")) := by
  have hvlist : (volumePrepareObject vopts nodesV vd).1
      = volumeHostCalls vopts vd ++ Call.applyServiceGroup ns
          :: volumeApplyService vopts nodesV (getHostname vopts vd) (escapeName nm)
              (volumeServiceDef vopts vd nm [ns])
              (vopts.serviceTemplates ++ prepareTemplates (getAnnotations vd)) := by
    simp [volumePrepareObject, hm, hn, hne, hvapply, hs, hc, hns, hnse]
  have hvhost : hostDisplayNames (volumeHostCalls vopts vd) = [some X] := by
    simp [volumeHostCalls, hvattach, hostDisplayNames, volumeApplyHostDef, mergeHost, hvd]
  refine ⟨?_, ?_, ?_, ?_, ?_⟩
  · simp [nodePrepareObject, hostDisplayNames, mergeHost, hnd]
  · cases hap : iopts.applyServices <;>
      simp [ingressPrepareObject, hiattach, hap, hostDisplayNames_append,
        hostDisplayNames_group_cons, hostDisplayNames_ingress_services,
        hostDisplayNames_applyHost_cons, hostDisplayNames_nil, ingressHostDef, mergeHost, hid]
  · rw [hvlist, hostDisplayNames_append, hvhost, hostDisplayNames_group_cons,
      hostDisplayNames_volumeApplyService, List.append_nil]
  · rw [hvlist, serviceDisplayNames_append, serviceDisplayNames_volumeHostCalls,
      serviceDisplayNames_group_cons,
      serviceDisplayNames_volumeApplyService _ _ _ _ _ _ hvattach,
      volumeServiceDef_display _ _ _ _ _ hYv, List.nil_append]
  · intro s hs'
    rw [ingressPrepareObject] at hs'
    cases hap : iopts.applyServices
    · rw [hap] at hs'
      revert hs'
      cases iopts.attachToNodes <;> simp [serviceDisplayNames]
    · rw [hap] at hs'
      rw [serviceDisplayNames_append, List.mem_append] at hs'
      rcases hs' with hs' | hs'
      · revert hs'
        cases iopts.attachToNodes <;> simp [serviceDisplayNames]
      · rw [if_pos rfl, serviceDisplayNames_group_cons] at hs'
        exact serviceDisplayNames_ingress_services_mem iopts nodesI idg (ingressHostname idg)
          (iopts.serviceTemplates ++ prepareTemplates idg.metadata.annotations) Y
          hiattach hYi idg.spec.rules s hs'

def wOvServiceY : ServiceOverrides := { display_name := some "Y" }

def wIngMetaY : IngressMetadata :=
  { name := "web4", namespace_ := "default", resourceOverrides := wOvServiceY }

def wIngY : IngressObject :=
  { kind := "Ingress", metadata := wIngMetaY, spec := { rules := [wRuleC], tls := true } }

def wVolMetaY : VolumeMetadata :=
  { name := some "pv-y", uid := some "uy", resourceOverrides := wOvServiceY }

def wVolY : PersistentVolume :=
  { metadata := some wVolMetaY, spec := some { claimRef := some { namespace_ := some "ns-y" } } }

def wOptsXNode : NodeOptions := { hostDefinition := { display_name := some "X" } }

def wOptsXIng : IngressOptions :=
  { hostDefinition := { display_name := some "X" }
    serviceDefinition := { display_name := some "Z" } }

def wOptsXVol : VolumeOptions :=
  { hostDefinition := { display_name := some "X" }
    serviceDefinition := { display_name := some "Z" } }

theorem merge_precedence_witness :
    wOptsXNode.hostDefinition.display_name = some "X"
    ∧ wOptsXIng.serviceDefinition.display_name = some "Z"
    ∧ (volumePrepareResource wVolY).display_name = some "Y"
    ∧ (hostDisplayNames (nodePrepareObject wOptsXNode [] wNodeA).2 = [some "X"]
       ∧ hostDisplayNames (ingressPrepareObject wOptsXIng [] wIngY) = [some "X"]
       ∧ hostDisplayNames (volumePrepareObject wOptsXVol [] wVolY).1 = [some "X"]
       ∧ serviceDisplayNames (volumePrepareObject wOptsXVol [] wVolY).1 = ["Y"]
       ∧ (∀ s ∈ serviceDisplayNames (ingressPrepareObject wOptsXIng [] wIngY),
            s = "Y" ∨ (wIngY.spec.tls = true ∧ s = "Y" ++ "s"))) :=
  ⟨rfl, rfl, rfl,
   merge_precedence wOptsXNode wOptsXIng wOptsXVol [] [] [] wNodeA wIngY wVolY
     "X" "Y" wVolMetaY "pv-y" { claimRef := some { namespace_ := some "ns-y" } }
     { namespace_ := some "ns-y" } "ns-y"
     rfl rfl rfl rfl rfl rfl rfl rfl rfl rfl (by decide) rfl rfl rfl (by decide)⟩

end KubeIcinga
